import Mathlib

/-!
# gnark-plonk-srs: from a powers-of-tau challenge file to KZG reference strings

A shallow embedding of `src/srs_from_challenge.go` (function `main`).

* The opened challenge file is a byte list together with a read offset.
* `Seek`, `ReadFull` follow the Go standard library; `main` drops every error
  they return, and so does the embedding.
* Go `int`/`int64` quantities are unbounded here: every size that reaches the
  arithmetic has first been allocated with `make`, and the offset computation
  of the seek is carried out in `Int` because it subtracts.
* The hard-coded `N := 27` of the source is the parameter `N`.
* `bls12381.PrecomputeLines` and `kzg.ToLagrangeG1` are library calls and are
  parameters of the embedding.
-/

namespace SrsFromChallenge

/-! ## Bytes, files and the two I/O calls -/

abbrev Byte := Fin 256

/-- The error values the I/O calls of the program can return. -/
inductive GoError where
  | EOF
  | ErrUnexpectedEOF
  | ErrInvalidSeek
  deriving DecidableEq, Repr

/-- An opened file: its content and the current offset. -/
structure File where
  data : List Byte
  pos : Nat
  deriving DecidableEq, Repr

/-- The call `f.Seek(off, io.SeekStart)`: a negative offset is an error and
leaves the position where it was; any other offset is accepted, also past
the end of the file. Returns the file, the new position and the error. -/
def SeekStart (f : File) (off : Int) : File × Int × Option GoError :=
  if off < 0 then (f, 0, some GoError.ErrInvalidSeek)
  else ({ f with pos := off.toNat }, off, none)

/-- The call `f.Seek(0, io.SeekCurrent)`: reports the current position. -/
def SeekCurrent0 (f : File) : File × Int × Option GoError :=
  (f, (f.pos : Int), none)

/-- The statement pair `buf := make([]byte, n); io.ReadFull(f, buf)`: the
buffer starts as `n` zero bytes, the bytes available from the current offset
(at most `n`) overwrite its front, and the offset advances by the number of
bytes read. The error is `EOF` when nothing was read, `ErrUnexpectedEOF` when
fewer than `n` bytes were read. -/
def ReadFull (f : File) (n : Nat) : File × List Byte × Option GoError :=
  let got := (f.data.drop f.pos).take n
  let buf := got ++ List.replicate (n - got.length) (0 : Byte)
  let err :=
    if got.length = n then none
    else if got.length = 0 then some GoError.EOF
    else some GoError.ErrUnexpectedEOF
  ({ f with pos := f.pos + got.length }, buf, err)

/-! ## Field elements and points -/

/-- The modulus of the base field of BLS12-381. -/
def fpModulus : Nat :=
  0x1a0111ea397fe69a4b1ba7b6434bacd764774b84f38512bf6730d2a0f6b0f6241eabfffeb153ffffb9feffffffffaaab

/-- An element of the base field, by its canonical representative. -/
structure Fp where
  val : Nat
  deriving DecidableEq, Repr

/-- The big-endian unsigned integer written by a byte string. -/
def beNat (bs : List Byte) : Nat :=
  bs.foldl (fun acc b => acc * 256 + b.val) 0

/-- Modelled from the spec: `fp.Element.SetBytes` of gnark-crypto, which is
not part of this repository; "byte strings are interpreted as big-endian
unsigned integers reduced into the field representation of each
coordinate". -/
def SetBytes (bs : List Byte) : Fp :=
  ⟨beNat bs % fpModulus⟩

/-- The type `bls12381.G1Affine`. -/
structure G1Affine where
  X : Fp
  Y : Fp
  deriving DecidableEq, Repr

/-- The type `bls12381.E2` of the coordinates of a target-group point. -/
structure E2 where
  A0 : Fp
  A1 : Fp
  deriving DecidableEq, Repr

/-- The type `bls12381.G2Affine`. -/
structure G2Affine where
  X : E2
  Y : E2
  deriving DecidableEq, Repr

/-! ## Reading the source-group section (lines 16-40) -/

/-- One turn of the loop of lines 24-40: two 48-byte reads, two `SetBytes`. -/
def readG1Point (f : File) : File × G1Affine :=
  let (f1, xBytes, _) := ReadFull f 48
  let (f2, yBytes, _) := ReadFull f1 48
  (f2, { X := SetBytes xBytes, Y := SetBytes yBytes })

/-- The loop `for i := 0; i < maxSize; i++` of lines 24-40, returning the
file and the points `g1[0], g1[1], ...` stored so far, in index order. -/
def readG1Loop (f : File) : Nat → File × List G1Affine
  | 0 => (f, [])
  | k + 1 =>
    let (f1, p) := readG1Point f
    let (f2, ps) := readG1Loop f1 k
    (f2, p :: ps)

/-- Lines 13-40: open the transcript, seek past the 64-byte hash, read
`maxSize` source-group points. -/
def readG1 (transcript : List Byte) (maxSize : Nat) : File × List G1Affine :=
  let (f0, _, _) := SeekStart { data := transcript, pos := 0 } 64
  readG1Loop f0 maxSize

/-! ## Moving to and reading the target-group section (lines 43-69) -/

/-- Lines 44-45: ask for the current offset, then seek to
`currentPos + (int64(1<<28-1) - int64(maxSize)) * 96`; both errors are
dropped. -/
def seekG2 (f : File) (maxSize : Nat) : File :=
  let (f1, currentPos, _) := SeekCurrent0 f
  let (f2, _, _) := SeekStart f1 (currentPos + (((1 <<< 28 - 1 : Nat) : Int) - (maxSize : Int)) * 96)
  f2

/-- The reads and assignments of one turn of the loop of lines 50-69: four
48-byte reads, stored into `X.A1`, `X.A0`, `Y.A1`, `Y.A0` in that order. -/
def readG2Point (f : File) : File × G2Affine :=
  let (f1, xa1Bytes, _) := ReadFull f 48
  let (f2, xa0Bytes, _) := ReadFull f1 48
  let (f3, ya1Bytes, _) := ReadFull f2 48
  let (f4, ya0Bytes, _) := ReadFull f3 48
  (f4, { X := { A0 := SetBytes xa0Bytes, A1 := SetBytes xa1Bytes },
         Y := { A0 := SetBytes ya0Bytes, A1 := SetBytes ya1Bytes } })

/-- The loop `for i := 0; i < 2; i++` of lines 50-69, written out: each
point is read and its lines are computed right after (line 68). The arrays
`g2` and `lines` of length 2 are pairs. -/
def readG2 {L : Type} (PrecomputeLines : G2Affine → L) (f : File) :
    File × (G2Affine × G2Affine) × (L × L) :=
  let (f1, p0) := readG2Point f
  let l0 := PrecomputeLines p0
  let (f2, p1) := readG2Point f1
  let l1 := PrecomputeLines p1
  (f2, (p0, p1), (l0, l1))

/-! ## The reference strings (lines 71-104) -/

/-- The type `kzg.ProvingKey`. -/
structure ProvingKey where
  G1 : List G1Affine
  deriving DecidableEq, Repr

/-- The type `kzg.VerifyingKey`; `L` is the type `[2][63]LineEvaluationAff`
of the lines of one target-group point. -/
structure VerifyingKey (L : Type) where
  G2 : G2Affine × G2Affine
  G1 : G1Affine
  Lines : L × L
  deriving DecidableEq, Repr

/-- The type `kzg.SRS`. -/
structure SRS (L : Type) where
  Pk : ProvingKey
  Vk : VerifyingKey L
  deriving DecidableEq, Repr

/-- The run-time panics of the slice and index expressions of the loop. -/
inductive GoPanic where
  | sliceBoundsOutOfRange (high cap : Nat)
  | indexOutOfRange (index len : Nat)
  deriving DecidableEq, Repr

/-- The slice expression `s[:high]` on a slice whose capacity is its length
(as made by `make([]T, len)`): it panics when `high` exceeds the capacity. -/
def sliceTo {α : Type} (s : List α) (high : Nat) : Except GoPanic (List α) :=
  if high ≤ s.length then .ok (s.take high)
  else .error (GoPanic.sliceBoundsOutOfRange high s.length)

/-- The index expression `s[i]`: it panics when `i` is not below the length. -/
def indexAt {α : Type} (s : List α) (i : Nat) : Except GoPanic α :=
  match s[i]? with
  | some a => .ok a
  | none => .error (GoPanic.indexOutOfRange i s.length)

/-- What a run leaves behind: the files written, in the order of writing,
each with its path and the reference string serialised into it, and the
panic that ended the run, if one did. -/
structure Run (L : Type) where
  files : List (String × SRS L)
  panic : Option GoPanic
  deriving DecidableEq, Repr

/-- The body of the loop of lines 71-104 for one `n`, given the files
written so far. Creating and writing the output files is taken to
succeed. -/
def genSize {L : Type} (ToLagrangeG1 : List G1Affine → List G1Affine × Option GoError)
    (g1 : List G1Affine) (g2 : G2Affine × G2Affine) (lines : L × L)
    (n : Nat) (written : List (String × SRS L)) : Run L :=
  let sizeLagrange := 1 <<< n
  let sizeCanonical := sizeLagrange + 3
  let outputPath := "srs_" ++ toString n ++ ".srs"
  match sliceTo g1 sizeCanonical with
  | .error e => ⟨written, some e⟩
  | .ok pkG1 =>
    match indexAt g1 0 with
    | .error e => ⟨written, some e⟩
    | .ok vkG1 =>
      let srs : SRS L := { Pk := { G1 := pkG1 }, Vk := { G1 := vkG1, G2 := g2, Lines := lines } }
      let written1 := written ++ [(outputPath, srs)]
      let outputPath1 := "srsLagrange_" ++ toString n ++ ".srs"
      match sliceTo g1 sizeLagrange with
      | .error e => ⟨written1, some e⟩
      | .ok powers =>
        let srsLagrange : SRS L := { Pk := { G1 := (ToLagrangeG1 powers).1 }, Vk := srs.Vk }
        ⟨written1 ++ [(outputPath1, srsLagrange)], none⟩

/-- The loop `for n := ...; n <= N; n += 1` with `count` turns left to run,
the next one for `n`; a panic ends the run. -/
def genLoop {L : Type} (ToLagrangeG1 : List G1Affine → List G1Affine × Option GoError)
    (g1 : List G1Affine) (g2 : G2Affine × G2Affine) (lines : L × L) :
    Nat → Nat → List (String × SRS L) → Run L
  | 0, _, written => ⟨written, none⟩
  | count + 1, n, written =>
    match genSize ToLagrangeG1 g1 g2 lines n written with
    | ⟨written1, some e⟩ => ⟨written1, some e⟩
    | ⟨written1, none⟩ => genLoop ToLagrangeG1 g1 g2 lines count (n + 1) written1

/-- Lines 13-69, the reader: the `maxSize` source-group points, the two
target-group points and their lines. -/
def readTranscript {L : Type} (PrecomputeLines : G2Affine → L)
    (transcript : List Byte) (maxSize : Nat) :
    List G1Affine × (G2Affine × G2Affine) × (L × L) :=
  let (f1, g1) := readG1 transcript maxSize
  let f2 := seekG2 f1 maxSize
  let (_, g2, lines) := readG2 PrecomputeLines f2
  (g1, g2, lines)

/-- The function `main`, with the content of `challenge_19` and the
constant `N` as inputs: `n` runs over `0, ..., N`, that is `N + 1` turns. -/
def main {L : Type} (PrecomputeLines : G2Affine → L)
    (ToLagrangeG1 : List G1Affine → List G1Affine × Option GoError)
    (N : Nat) (transcript : List Byte) : Run L :=
  let maxSize := (1 <<< N) + 3
  let (g1, g2, lines) := readTranscript PrecomputeLines transcript maxSize
  genLoop ToLagrangeG1 g1 g2 lines (N + 1) 0 []

/-! ## Statement vocabulary -/

/-- The buffer a 48-byte read at offset `off` of the transcript leaves
behind: the bytes `[off, off + 48)` that exist, then zeros. -/
def fieldAt (t : List Byte) (off : Nat) : List Byte :=
  (t.drop off).take 48 ++ List.replicate (48 - ((t.drop off).take 48).length) (0 : Byte)

/-- The source-group point whose two fields start at `off`. -/
def g1PointAt (t : List Byte) (off : Nat) : G1Affine :=
  { X := SetBytes (fieldAt t off), Y := SetBytes (fieldAt t (off + 48)) }

/-- The target-group point whose four fields start at `off`: the fields are
`X.A1`, `X.A0`, `Y.A1`, `Y.A0` in file order. -/
def g2PointAt (t : List Byte) (off : Nat) : G2Affine :=
  { X := { A1 := SetBytes (fieldAt t off), A0 := SetBytes (fieldAt t (off + 48)) },
    Y := { A1 := SetBytes (fieldAt t (off + 96)), A0 := SetBytes (fieldAt t (off + 144)) } }

/-- The read offset `pos` serves the field at `off`: either it is `off`, or
the file has ended at or before both. -/
def Aligned (t : List Byte) (pos off : Nat) : Prop :=
  pos = off ∨ (t.length ≤ pos ∧ pos ≤ off)

/-- The offset from which the first target-group point is read, after the
`maxSize` source-group points were read and the seek of line 45 was done. -/
def g2Offset (transcript : List Byte) (maxSize : Nat) : Nat :=
  (seekG2 (readG1 transcript maxSize).1 maxSize).pos

/-- A transcript of `len` bytes for the examples: byte `i` is `i mod 256`. -/
def sampleTranscript (len : Nat) : List Byte :=
  (List.range len).map (fun i => Fin.ofNat i)

/-- A stand-in for `bls12381.PrecomputeLines` in the examples. -/
def sampleLines (p : G2Affine) : G2Affine := p

/-- A stand-in for `kzg.ToLagrangeG1` in the examples; it keeps the length,
as the library function does. -/
def sampleToLagrange (powers : List G1Affine) : List G1Affine × Option GoError :=
  (powers.reverse, none)

/-! ## The reads -/

theorem fieldAt_of_le (t : List Byte) (off : Nat) (h : off + 48 ≤ t.length) :
    fieldAt t off = (t.drop off).take 48 := by
  have hl : ((t.drop off).take 48).length = 48 := by
    rw [List.length_take, List.length_drop]; omega
  simp [fieldAt, hl]

theorem fieldAt_of_ge (t : List Byte) (off : Nat) (h : t.length ≤ off) :
    fieldAt t off = List.replicate 48 (0 : Byte) := by
  simp [fieldAt, List.drop_eq_nil_of_le h]

theorem length_fieldAt (t : List Byte) (off : Nat) : (fieldAt t off).length = 48 := by
  simp only [fieldAt, List.length_append, List.length_replicate, List.length_take,
    List.length_drop]
  omega

theorem ReadFull_data (f : File) (n : Nat) : (ReadFull f n).1.data = f.data := rfl

theorem ReadFull_buf (f : File) (off : Nat) (h : Aligned f.data f.pos off) :
    (ReadFull f 48).2.1 = fieldAt f.data off := by
  rcases h with h | ⟨h1, h2⟩
  · simp [ReadFull, fieldAt, h]
  · have e1 : f.data.drop f.pos = [] := List.drop_eq_nil_of_le h1
    have e2 : f.data.drop off = [] := List.drop_eq_nil_of_le (le_trans h1 h2)
    simp [ReadFull, fieldAt, e1, e2]

theorem ReadFull_pos (f : File) (off : Nat) (h : Aligned f.data f.pos off) :
    Aligned f.data (ReadFull f 48).1.pos (off + 48) := by
  simp only [Aligned, ReadFull, List.length_take, List.length_drop] at *
  omega

theorem readG1Point_spec (f : File) (off : Nat) (h : Aligned f.data f.pos off) :
    (readG1Point f).2 = g1PointAt f.data off ∧ (readG1Point f).1.data = f.data ∧
      Aligned f.data (readG1Point f).1.pos (off + 96) := by
  have h1 := ReadFull_pos f off h
  have b1 := ReadFull_buf f off h
  have h2 := ReadFull_pos (ReadFull f 48).1 (off + 48) h1
  have b2 := ReadFull_buf (ReadFull f 48).1 (off + 48) h1
  rw [ReadFull_data] at b2 h2
  refine ⟨?_, rfl, h2⟩
  simp only [readG1Point, g1PointAt, b1, b2]

theorem readG1Loop_spec (k : Nat) : ∀ (f : File) (off : Nat), Aligned f.data f.pos off →
    (readG1Loop f k).2 = (List.range k).map (fun i => g1PointAt f.data (off + 96 * i)) ∧
      (readG1Loop f k).1.data = f.data ∧
      Aligned f.data (readG1Loop f k).1.pos (off + 96 * k) := by
  induction k with
  | zero => intro f off h; exact ⟨rfl, rfl, h⟩
  | succ k ih =>
    intro f off h
    obtain ⟨p1, p2, p3⟩ := readG1Point_spec f off h
    rw [← p2] at p3
    obtain ⟨q1, q2, q3⟩ := ih (readG1Point f).1 (off + 96) p3
    rw [p2] at q1 q2 q3
    refine ⟨?_, q2, ?_⟩
    · simp only [readG1Loop, q1, p1, List.range_succ_eq_map, List.map_cons, List.map_map]
      refine congrArg₂ _ (by simp) (List.map_congr_left ?_)
      intro i _
      simp only [Function.comp, Nat.succ_eq_add_one]
      congr 1
      omega
    · have e : off + 96 + 96 * k = off + 96 * (k + 1) := by omega
      rw [← e]; exact q3

theorem readG1_spec (t : List Byte) (maxSize : Nat) :
    (readG1 t maxSize).2 = (List.range maxSize).map (fun i => g1PointAt t (64 + 96 * i)) ∧
      (readG1 t maxSize).1.data = t ∧
      Aligned t (readG1 t maxSize).1.pos (64 + 96 * maxSize) := by
  have h := readG1Loop_spec maxSize { data := t, pos := 64 } 64 (Or.inl rfl)
  simpa [readG1, SeekStart] using h

theorem readG2Point_spec (f : File) (off : Nat) (h : Aligned f.data f.pos off) :
    (readG2Point f).2 = g2PointAt f.data off ∧ (readG2Point f).1.data = f.data ∧
      Aligned f.data (readG2Point f).1.pos (off + 192) := by
  have h1 := ReadFull_pos f off h
  have b1 := ReadFull_buf f off h
  have h2 := ReadFull_pos (ReadFull f 48).1 (off + 48) h1
  have b2 := ReadFull_buf (ReadFull f 48).1 (off + 48) h1
  have h3 := ReadFull_pos (ReadFull (ReadFull f 48).1 48).1 (off + 48 + 48) h2
  have b3 := ReadFull_buf (ReadFull (ReadFull f 48).1 48).1 (off + 48 + 48) h2
  have h4 := ReadFull_pos (ReadFull (ReadFull (ReadFull f 48).1 48).1 48).1 (off + 48 + 48 + 48) h3
  have b4 := ReadFull_buf (ReadFull (ReadFull (ReadFull f 48).1 48).1 48).1 (off + 48 + 48 + 48) h3
  simp only [ReadFull_data] at b2 b3 b4 h4
  refine ⟨?_, rfl, h4⟩
  simp only [readG2Point, g2PointAt, b1, b2, b3, b4]

theorem readG2_spec {L : Type} (PrecomputeLines : G2Affine → L) (f : File) :
    (readG2 PrecomputeLines f).2 =
      ((g2PointAt f.data f.pos, g2PointAt f.data (f.pos + 192)),
       (PrecomputeLines (g2PointAt f.data f.pos),
        PrecomputeLines (g2PointAt f.data (f.pos + 192)))) := by
  obtain ⟨p1, p2, p3⟩ := readG2Point_spec f f.pos (Or.inl rfl)
  rw [← p2] at p3
  obtain ⟨q1, _, _⟩ := readG2Point_spec (readG2Point f).1 (f.pos + 192) p3
  rw [p2] at q1
  simp only [readG2, p1, q1]

theorem seekG2_data (f : File) (maxSize : Nat) : (seekG2 f maxSize).data = f.data := by
  simp only [seekG2, SeekCurrent0, SeekStart]
  split <;> rfl

theorem readTranscript_eq {L : Type} (PrecomputeLines : G2Affine → L)
    (t : List Byte) (maxSize : Nat) :
    readTranscript PrecomputeLines t maxSize =
      ((List.range maxSize).map (fun i => g1PointAt t (64 + 96 * i)),
       (g2PointAt t (g2Offset t maxSize), g2PointAt t (g2Offset t maxSize + 192)),
       (PrecomputeLines (g2PointAt t (g2Offset t maxSize)),
        PrecomputeLines (g2PointAt t (g2Offset t maxSize + 192)))) := by
  obtain ⟨r1, r2, _⟩ := readG1_spec t maxSize
  have hs := readG2_spec PrecomputeLines (seekG2 (readG1 t maxSize).1 maxSize)
  rw [seekG2_data, r2] at hs
  simp only [readTranscript, hs, r1, g2Offset]

theorem g2Offset_of_le (t : List Byte) (maxSize : Nat) (h : 64 + 96 * maxSize ≤ t.length) :
    g2Offset t maxSize = 64 + (2 ^ 28 - 1) * 96 := by
  obtain ⟨_, r2, r3⟩ := readG1_spec t maxSize
  have hp : (readG1 t maxSize).1.pos = 64 + 96 * maxSize := by
    simp only [Aligned] at r3; omega
  simp only [g2Offset, seekG2, SeekCurrent0, SeekStart, hp]
  have e : ((64 + 96 * maxSize : Nat) : Int) + (((1 <<< 28 - 1 : Nat) : Int) - (maxSize : Int)) * 96
      = ((64 + (2 ^ 28 - 1) * 96 : Nat) : Int) := by
    simp only [Nat.one_shiftLeft]; push_cast; ring
  rw [e]
  simp

/-! ## The loop over the sizes -/

theorem genSize_ok {L : Type} (ToLagrangeG1 : List G1Affine → List G1Affine × Option GoError)
    (g1 : List G1Affine) (g2 : G2Affine × G2Affine) (lines : L × L)
    (n : Nat) (written : List (String × SRS L)) (p : G1Affine)
    (h : 2 ^ n + 3 ≤ g1.length) (h0 : g1[0]? = some p) :
    genSize ToLagrangeG1 g1 g2 lines n written =
      ⟨written ++
        [("srs_" ++ toString n ++ ".srs",
            { Pk := { G1 := g1.take (2 ^ n + 3) }, Vk := { G1 := p, G2 := g2, Lines := lines } }),
         ("srsLagrange_" ++ toString n ++ ".srs",
            { Pk := { G1 := (ToLagrangeG1 (g1.take (2 ^ n))).1 },
              Vk := { G1 := p, G2 := g2, Lines := lines } })], none⟩ := by
  have h2 : 2 ^ n ≤ g1.length := by omega
  simp [genSize, sliceTo, indexAt, Nat.one_shiftLeft, h, h0, h2]

theorem genSize_short {L : Type} (ToLagrangeG1 : List G1Affine → List G1Affine × Option GoError)
    (g1 : List G1Affine) (g2 : G2Affine × G2Affine) (lines : L × L)
    (n : Nat) (written : List (String × SRS L)) (h : g1.length < 2 ^ n + 3) :
    genSize ToLagrangeG1 g1 g2 lines n written =
      ⟨written, some (GoPanic.sliceBoundsOutOfRange (2 ^ n + 3) g1.length)⟩ := by
  have h2 : ¬ (2 ^ n + 3 ≤ g1.length) := by omega
  simp [genSize, sliceTo, Nat.one_shiftLeft, h2]

theorem genLoop_ok {L : Type} (ToLagrangeG1 : List G1Affine → List G1Affine × Option GoError)
    (g1 : List G1Affine) (g2 : G2Affine × G2Affine) (lines : L × L) (p : G1Affine)
    (h0 : g1[0]? = some p) (count : Nat) :
    ∀ (n : Nat) (written : List (String × SRS L)),
      (∀ m, m < n + count → 2 ^ m + 3 ≤ g1.length) →
      genLoop ToLagrangeG1 g1 g2 lines count n written =
        ⟨written ++ (List.range' n count).flatMap (fun m =>
          [("srs_" ++ toString m ++ ".srs",
              ({ Pk := { G1 := g1.take (2 ^ m + 3) },
                 Vk := { G1 := p, G2 := g2, Lines := lines } } : SRS L)),
           ("srsLagrange_" ++ toString m ++ ".srs",
              { Pk := { G1 := (ToLagrangeG1 (g1.take (2 ^ m))).1 },
                Vk := { G1 := p, G2 := g2, Lines := lines } })]), none⟩ := by
  induction count with
  | zero => intro n written _; simp [genLoop]
  | succ c ih =>
    intro n written h
    have hn : 2 ^ n + 3 ≤ g1.length := h n (by omega)
    rw [genLoop, genSize_ok ToLagrangeG1 g1 g2 lines n written p hn h0]
    simp only
    rw [ih (n + 1) _ (fun m hm => h m (by omega))]
    simp [List.range'_succ]

theorem flatMap_pair_length {α : Type} (a b : Nat → α) (c : Nat) :
    ((List.range c).flatMap (fun m => [a m, b m])).length = 2 * c := by
  induction c with
  | zero => simp
  | succ c ih => rw [List.range_succ, List.flatMap_append, List.length_append, ih]; simp; omega

theorem flatMap_pair_get {α : Type} (a b : Nat → α) (c n : Nat) (h : n < c) :
    ((List.range c).flatMap (fun m => [a m, b m]))[2 * n]? = some (a n) ∧
      ((List.range c).flatMap (fun m => [a m, b m]))[2 * n + 1]? = some (b n) := by
  induction c with
  | zero => omega
  | succ c ih =>
    rw [List.range_succ, List.flatMap_append]
    by_cases hc : n < c
    · obtain ⟨i1, i2⟩ := ih hc
      have hl := flatMap_pair_length a b c
      rw [List.getElem?_append_left (by omega), List.getElem?_append_left (by omega)]
      exact ⟨i1, i2⟩
    · have e : n = c := by omega
      subst e
      have hl := flatMap_pair_length a b n
      rw [List.getElem?_append_right (by omega), List.getElem?_append_right (by omega), hl]
      simp

/-! ## The whole run -/

theorem readTranscript_g1 {L : Type} (PrecomputeLines : G2Affine → L)
    (t : List Byte) (maxSize : Nat) :
    (readTranscript PrecomputeLines t maxSize).1 =
      (List.range maxSize).map (fun i => g1PointAt t (64 + 96 * i)) := by
  rw [readTranscript_eq]

theorem readTranscript_g1_length {L : Type} (PrecomputeLines : G2Affine → L)
    (t : List Byte) (maxSize : Nat) :
    (readTranscript PrecomputeLines t maxSize).1.length = maxSize := by
  rw [readTranscript_g1]; simp

theorem readTranscript_g1_get {L : Type} (PrecomputeLines : G2Affine → L)
    (t : List Byte) (maxSize i : Nat) (hi : i < maxSize) :
    (readTranscript PrecomputeLines t maxSize).1[i]? = some (g1PointAt t (64 + 96 * i)) := by
  rw [readTranscript_g1, List.getElem?_map, List.getElem?_range hi]; rfl

theorem pow_add_three_le {n N : Nat} (h : n ≤ N) : 2 ^ n + 3 ≤ 2 ^ N + 3 :=
  Nat.add_le_add_right (Nat.pow_le_pow_right (by decide) h) 3

theorem main_eq {L : Type} (PrecomputeLines : G2Affine → L)
    (ToLagrangeG1 : List G1Affine → List G1Affine × Option GoError)
    (N : Nat) (t : List Byte) :
    main PrecomputeLines ToLagrangeG1 N t =
      ⟨(List.range (N + 1)).flatMap (fun m =>
        [("srs_" ++ toString m ++ ".srs",
            ({ Pk := { G1 := (readTranscript PrecomputeLines t (2 ^ N + 3)).1.take (2 ^ m + 3) },
               Vk := { G1 := g1PointAt t 64,
                       G2 := (readTranscript PrecomputeLines t (2 ^ N + 3)).2.1,
                       Lines := (readTranscript PrecomputeLines t (2 ^ N + 3)).2.2 } } : SRS L)),
         ("srsLagrange_" ++ toString m ++ ".srs",
            { Pk := { G1 := (ToLagrangeG1
                        ((readTranscript PrecomputeLines t (2 ^ N + 3)).1.take (2 ^ m))).1 },
              Vk := { G1 := g1PointAt t 64,
                      G2 := (readTranscript PrecomputeLines t (2 ^ N + 3)).2.1,
                      Lines := (readTranscript PrecomputeLines t (2 ^ N + 3)).2.2 } })]), none⟩ := by
  have h0 := readTranscript_g1_get PrecomputeLines t (2 ^ N + 3) 0 (Nat.succ_pos _)
  have hl := readTranscript_g1_length PrecomputeLines t (2 ^ N + 3)
  have h := genLoop_ok ToLagrangeG1 (readTranscript PrecomputeLines t (2 ^ N + 3)).1
    (readTranscript PrecomputeLines t (2 ^ N + 3)).2.1
    (readTranscript PrecomputeLines t (2 ^ N + 3)).2.2 (g1PointAt t 64) h0 (N + 1) 0 []
    (fun m hm => by rw [hl]; exact pow_add_three_le (by omega))
  simp only [main, Nat.one_shiftLeft]
  rw [h, List.range_eq_range']
  simp

theorem g2PointAt_of_le (t : List Byte) (off : Nat) (h : off + 192 ≤ t.length) :
    g2PointAt t off =
      { X := { A1 := SetBytes ((t.drop off).take 48),
               A0 := SetBytes ((t.drop (off + 48)).take 48) },
        Y := { A1 := SetBytes ((t.drop (off + 96)).take 48),
               A0 := SetBytes ((t.drop (off + 144)).take 48) } } := by
  simp only [g2PointAt, fieldAt_of_le t off (by omega), fieldAt_of_le t (off + 48) (by omega),
    fieldAt_of_le t (off + 96) (by omega), fieldAt_of_le t (off + 144) (by omega)]

theorem main_panic {L : Type} (PrecomputeLines : G2Affine → L)
    (ToLagrangeG1 : List G1Affine → List G1Affine × Option GoError)
    (N : Nat) (t : List Byte) :
    (main PrecomputeLines ToLagrangeG1 N t).panic = none := by
  rw [main_eq]

theorem main_monomial {L : Type} (PrecomputeLines : G2Affine → L)
    (ToLagrangeG1 : List G1Affine → List G1Affine × Option GoError)
    (N : Nat) (t : List Byte) (n : Nat) (h : n ≤ N) :
    (main PrecomputeLines ToLagrangeG1 N t).files[2 * n]? =
      some ("srs_" ++ toString n ++ ".srs",
        { Pk := { G1 := (readTranscript PrecomputeLines t (2 ^ N + 3)).1.take (2 ^ n + 3) },
          Vk := { G1 := g1PointAt t 64,
                  G2 := (readTranscript PrecomputeLines t (2 ^ N + 3)).2.1,
                  Lines := (readTranscript PrecomputeLines t (2 ^ N + 3)).2.2 } }) := by
  rw [main_eq]
  exact (flatMap_pair_get _ _ (N + 1) n (by omega)).1

theorem main_lagrange {L : Type} (PrecomputeLines : G2Affine → L)
    (ToLagrangeG1 : List G1Affine → List G1Affine × Option GoError)
    (N : Nat) (t : List Byte) (n : Nat) (h : n ≤ N) :
    (main PrecomputeLines ToLagrangeG1 N t).files[2 * n + 1]? =
      some ("srsLagrange_" ++ toString n ++ ".srs",
        { Pk := { G1 := (ToLagrangeG1
                    ((readTranscript PrecomputeLines t (2 ^ N + 3)).1.take (2 ^ n))).1 },
          Vk := { G1 := g1PointAt t 64,
                  G2 := (readTranscript PrecomputeLines t (2 ^ N + 3)).2.1,
                  Lines := (readTranscript PrecomputeLines t (2 ^ N + 3)).2.2 } }) := by
  rw [main_eq]
  exact (flatMap_pair_get _ _ (N + 1) n (by omega)).2

theorem main_files_length {L : Type} (PrecomputeLines : G2Affine → L)
    (ToLagrangeG1 : List G1Affine → List G1Affine × Option GoError)
    (N : Nat) (t : List Byte) :
    (main PrecomputeLines ToLagrangeG1 N t).files.length = 2 * (N + 1) := by
  rw [main_eq]
  exact flatMap_pair_length _ _ (N + 1)

theorem take_g1_length {L : Type} (PrecomputeLines : G2Affine → L)
    (t : List Byte) (N k : Nat) (h : k ≤ 2 ^ N + 3) :
    ((readTranscript PrecomputeLines t (2 ^ N + 3)).1.take k).length = k := by
  rw [List.length_take, readTranscript_g1_length]; omega

theorem readTranscript_lines {L : Type} (PrecomputeLines : G2Affine → L)
    (t : List Byte) (maxSize : Nat) :
    (readTranscript PrecomputeLines t maxSize).2.2 =
      (PrecomputeLines (readTranscript PrecomputeLines t maxSize).2.1.1,
       PrecomputeLines (readTranscript PrecomputeLines t maxSize).2.1.2) := by
  rw [readTranscript_eq]

/-! ## The claims -/

/-- C1: for every `maxSize` and every transcript of at least
`64 + 96 * maxSize` bytes the reader returns exactly `maxSize` source-group
points, and point `i` has `X` the big-endian integer of the bytes
`[64 + 96 i, 64 + 96 i + 48)` reduced modulo the field modulus and `Y`
that of the bytes `[64 + 96 i + 48, 64 + 96 i + 96)`. -/
theorem C1_source_group_layout {L : Type} (PrecomputeLines : G2Affine → L)
    (t : List Byte) (maxSize i : Nat)
    (ht : 64 + 96 * maxSize ≤ t.length) (hi : i < maxSize) :
    (readTranscript PrecomputeLines t maxSize).1.length = maxSize ∧
    (readTranscript PrecomputeLines t maxSize).1[i]? =
      some { X := ⟨beNat ((t.drop (64 + 96 * i)).take 48) % fpModulus⟩,
             Y := ⟨beNat ((t.drop (64 + 96 * i + 48)).take 48) % fpModulus⟩ } := by
  refine ⟨readTranscript_g1_length PrecomputeLines t maxSize, ?_⟩
  rw [readTranscript_g1_get PrecomputeLines t maxSize i hi]
  have hle : 64 + 96 * i + 48 + 48 ≤ t.length := by omega
  simp only [g1PointAt, SetBytes, fieldAt_of_le t (64 + 96 * i) (by omega),
    fieldAt_of_le t (64 + 96 * i + 48) hle]

theorem C1_source_group_layout_witness :
    64 + 96 * 4 ≤ (sampleTranscript 448).length ∧ 3 < 4 ∧
    ((readTranscript sampleLines (sampleTranscript 448) 4).1.length = 4 ∧
     (readTranscript sampleLines (sampleTranscript 448) 4).1[3]? =
      some { X := ⟨beNat (((sampleTranscript 448).drop (64 + 96 * 3)).take 48) % fpModulus⟩,
             Y := ⟨beNat (((sampleTranscript 448).drop (64 + 96 * 3 + 48)).take 48)
                    % fpModulus⟩ }) :=
  ⟨by simp [sampleTranscript], by decide,
   C1_source_group_layout sampleLines (sampleTranscript 448) 4 3
     (by simp [sampleTranscript]) (by decide)⟩

/-- C2: for every `maxSize ≤ 2^28 - 1` and every transcript that holds the
two target-group points at `O = 64 + (2^28 - 1) * 96`, the first target-group
point is read at `O`, whatever `maxSize` is, point `j` is decoded from the
192 bytes at `O + 192 j`, and its four 48-byte fields are `X.A1`, `X.A0`,
`Y.A1`, `Y.A0` in file order. -/
theorem C2_target_group_layout {L : Type} (PrecomputeLines : G2Affine → L)
    (t : List Byte) (maxSize : Nat)
    (hm : maxSize ≤ 2 ^ 28 - 1) (ht : 64 + (2 ^ 28 - 1) * 96 + 2 * 192 ≤ t.length) :
    g2Offset t maxSize = 64 + (2 ^ 28 - 1) * 96 ∧
    (readTranscript PrecomputeLines t maxSize).2.1 =
      ({ X := { A1 := SetBytes ((t.drop (64 + (2 ^ 28 - 1) * 96)).take 48),
                A0 := SetBytes ((t.drop (64 + (2 ^ 28 - 1) * 96 + 48)).take 48) },
         Y := { A1 := SetBytes ((t.drop (64 + (2 ^ 28 - 1) * 96 + 96)).take 48),
                A0 := SetBytes ((t.drop (64 + (2 ^ 28 - 1) * 96 + 144)).take 48) } },
       { X := { A1 := SetBytes ((t.drop (64 + (2 ^ 28 - 1) * 96 + 192)).take 48),
                A0 := SetBytes ((t.drop (64 + (2 ^ 28 - 1) * 96 + 192 + 48)).take 48) },
         Y := { A1 := SetBytes ((t.drop (64 + (2 ^ 28 - 1) * 96 + 192 + 96)).take 48),
                A0 := SetBytes ((t.drop (64 + (2 ^ 28 - 1) * 96 + 192 + 144)).take 48) } }) := by
  have ho : g2Offset t maxSize = 64 + (2 ^ 28 - 1) * 96 :=
    g2Offset_of_le t maxSize (by omega)
  refine ⟨ho, ?_⟩
  rw [readTranscript_eq, ho, g2PointAt_of_le t _ (by omega), g2PointAt_of_le t _ (by omega)]

theorem C2_target_group_layout_witness :
    4 ≤ 2 ^ 28 - 1 ∧
    64 + (2 ^ 28 - 1) * 96 + 2 * 192 ≤ (List.replicate 25769804128 (7 : Byte)).length ∧
    (g2Offset (List.replicate 25769804128 (7 : Byte)) 4 = 64 + (2 ^ 28 - 1) * 96 ∧
     (readTranscript sampleLines (List.replicate 25769804128 (7 : Byte)) 4).2.1 =
      ({ X := { A1 := SetBytes (((List.replicate 25769804128 (7 : Byte)).drop
                      (64 + (2 ^ 28 - 1) * 96)).take 48),
                A0 := SetBytes (((List.replicate 25769804128 (7 : Byte)).drop
                      (64 + (2 ^ 28 - 1) * 96 + 48)).take 48) },
         Y := { A1 := SetBytes (((List.replicate 25769804128 (7 : Byte)).drop
                      (64 + (2 ^ 28 - 1) * 96 + 96)).take 48),
                A0 := SetBytes (((List.replicate 25769804128 (7 : Byte)).drop
                      (64 + (2 ^ 28 - 1) * 96 + 144)).take 48) } },
       { X := { A1 := SetBytes (((List.replicate 25769804128 (7 : Byte)).drop
                      (64 + (2 ^ 28 - 1) * 96 + 192)).take 48),
                A0 := SetBytes (((List.replicate 25769804128 (7 : Byte)).drop
                      (64 + (2 ^ 28 - 1) * 96 + 192 + 48)).take 48) },
         Y := { A1 := SetBytes (((List.replicate 25769804128 (7 : Byte)).drop
                      (64 + (2 ^ 28 - 1) * 96 + 192 + 96)).take 48),
                A0 := SetBytes (((List.replicate 25769804128 (7 : Byte)).drop
                      (64 + (2 ^ 28 - 1) * 96 + 192 + 144)).take 48) } })) :=
  ⟨by norm_num, by rw [List.length_replicate]; norm_num,
   C2_target_group_layout sampleLines (List.replicate 25769804128 (7 : Byte)) 4
     (by norm_num) (by rw [List.length_replicate]; norm_num)⟩

/-- C3: for every `N` and every `n ≤ N`, the file `srs_n.srs` written by the
run holds a reference string whose commitment key is the decoded
source-group points at the indices `[0, 2^n + 3)`, in order; its length is
`2^n + 3`. -/
theorem C3_monomial_commitment_key {L : Type} (PrecomputeLines : G2Affine → L)
    (ToLagrangeG1 : List G1Affine → List G1Affine × Option GoError)
    (N n : Nat) (t : List Byte) (h : n ≤ N) :
    ∃ srs : SRS L,
      (main PrecomputeLines ToLagrangeG1 N t).files[2 * n]? =
        some ("srs_" ++ toString n ++ ".srs", srs) ∧
      srs.Pk.G1 = (readTranscript PrecomputeLines t (2 ^ N + 3)).1.take (2 ^ n + 3) ∧
      srs.Pk.G1.length = 2 ^ n + 3 ∧
      ∀ i, i < 2 ^ n + 3 →
        srs.Pk.G1[i]? = (readTranscript PrecomputeLines t (2 ^ N + 3)).1[i]? :=
  ⟨_, main_monomial PrecomputeLines ToLagrangeG1 N t n h, rfl,
    take_g1_length PrecomputeLines t N _ (pow_add_three_le h),
    fun _ hi => List.getElem?_take_of_lt hi⟩

theorem C3_monomial_commitment_key_witness :
    1 ≤ 2 ∧
    ∃ srs : SRS G2Affine,
      (main sampleLines sampleToLagrange 2 (sampleTranscript 800)).files[2 * 1]? =
        some ("srs_" ++ toString 1 ++ ".srs", srs) ∧
      srs.Pk.G1 = (readTranscript sampleLines (sampleTranscript 800) (2 ^ 2 + 3)).1.take (2 ^ 1 + 3) ∧
      srs.Pk.G1.length = 2 ^ 1 + 3 ∧
      ∀ i, i < 2 ^ 1 + 3 →
        srs.Pk.G1[i]? = (readTranscript sampleLines (sampleTranscript 800) (2 ^ 2 + 3)).1[i]? :=
  ⟨by decide, C3_monomial_commitment_key sampleLines sampleToLagrange 2 1
    (sampleTranscript 800) (by decide)⟩

/-- C4: for every `n ≤ N`, the file `srsLagrange_n.srs` holds a reference
string whose commitment key is `kzg.ToLagrangeG1` applied to the decoded
source-group points at the indices `[0, 2^n)`, which are exactly `2^n`
points; when the transform keeps the length of its input, the key has
exactly `2^n` points. -/
theorem C4_lagrange_commitment_key {L : Type} (PrecomputeLines : G2Affine → L)
    (ToLagrangeG1 : List G1Affine → List G1Affine × Option GoError)
    (N n : Nat) (t : List Byte) (h : n ≤ N)
    (hlen : ∀ powers, (ToLagrangeG1 powers).1.length = powers.length) :
    ∃ srs : SRS L,
      (main PrecomputeLines ToLagrangeG1 N t).files[2 * n + 1]? =
        some ("srsLagrange_" ++ toString n ++ ".srs", srs) ∧
      srs.Pk.G1 =
        (ToLagrangeG1 ((readTranscript PrecomputeLines t (2 ^ N + 3)).1.take (2 ^ n))).1 ∧
      ((readTranscript PrecomputeLines t (2 ^ N + 3)).1.take (2 ^ n)).length = 2 ^ n ∧
      srs.Pk.G1.length = 2 ^ n := by
  have hl := take_g1_length PrecomputeLines t N (2 ^ n)
    (le_trans (Nat.le_add_right _ 3) (pow_add_three_le h))
  exact ⟨_, main_lagrange PrecomputeLines ToLagrangeG1 N t n h, rfl, hl,
    by rw [hlen]; exact hl⟩

theorem C4_lagrange_commitment_key_witness :
    1 ≤ 2 ∧ (∀ powers, (sampleToLagrange powers).1.length = powers.length) ∧
    ∃ srs : SRS G2Affine,
      (main sampleLines sampleToLagrange 2 (sampleTranscript 800)).files[2 * 1 + 1]? =
        some ("srsLagrange_" ++ toString 1 ++ ".srs", srs) ∧
      srs.Pk.G1 =
        (sampleToLagrange
          ((readTranscript sampleLines (sampleTranscript 800) (2 ^ 2 + 3)).1.take (2 ^ 1))).1 ∧
      ((readTranscript sampleLines (sampleTranscript 800) (2 ^ 2 + 3)).1.take (2 ^ 1)).length
        = 2 ^ 1 ∧
      srs.Pk.G1.length = 2 ^ 1 :=
  ⟨by decide, fun powers => by simp [sampleToLagrange],
   C4_lagrange_commitment_key sampleLines sampleToLagrange 2 1 (sampleTranscript 800)
    (by decide) (fun powers => by simp [sampleToLagrange])⟩

/-- C5: for all `n1, n2 ≤ N` the four reference strings written for them
(monomial and Lagrange) carry one and the same verification key: its `G1` is
source-group point `[0]`, its `G2` the two target-group points the reader
decoded, and its `Lines` the lines the reader computed from them,
`lines[i] = PrecomputeLines(g2[i])`. -/
theorem C5_shared_verification_key {L : Type} (PrecomputeLines : G2Affine → L)
    (ToLagrangeG1 : List G1Affine → List G1Affine × Option GoError)
    (N n1 n2 : Nat) (t : List Byte) (h1 : n1 ≤ N) (h2 : n2 ≤ N) :
    ∃ vk : VerifyingKey L,
      (readTranscript PrecomputeLines t (2 ^ N + 3)).1[0]? = some vk.G1 ∧
      vk.G2 = (readTranscript PrecomputeLines t (2 ^ N + 3)).2.1 ∧
      vk.Lines = (readTranscript PrecomputeLines t (2 ^ N + 3)).2.2 ∧
      vk.Lines = (PrecomputeLines vk.G2.1, PrecomputeLines vk.G2.2) ∧
      ((main PrecomputeLines ToLagrangeG1 N t).files[2 * n1]?).map (fun f => f.2.Vk) = some vk ∧
      ((main PrecomputeLines ToLagrangeG1 N t).files[2 * n1 + 1]?).map (fun f => f.2.Vk)
        = some vk ∧
      ((main PrecomputeLines ToLagrangeG1 N t).files[2 * n2]?).map (fun f => f.2.Vk) = some vk ∧
      ((main PrecomputeLines ToLagrangeG1 N t).files[2 * n2 + 1]?).map (fun f => f.2.Vk)
        = some vk := by
  refine ⟨{ G1 := g1PointAt t 64,
            G2 := (readTranscript PrecomputeLines t (2 ^ N + 3)).2.1,
            Lines := (readTranscript PrecomputeLines t (2 ^ N + 3)).2.2 }, ?_, rfl, rfl,
          readTranscript_lines PrecomputeLines t (2 ^ N + 3), ?_, ?_, ?_, ?_⟩
  · exact readTranscript_g1_get PrecomputeLines t (2 ^ N + 3) 0 (Nat.succ_pos _)
  · rw [main_monomial PrecomputeLines ToLagrangeG1 N t n1 h1]; rfl
  · rw [main_lagrange PrecomputeLines ToLagrangeG1 N t n1 h1]; rfl
  · rw [main_monomial PrecomputeLines ToLagrangeG1 N t n2 h2]; rfl
  · rw [main_lagrange PrecomputeLines ToLagrangeG1 N t n2 h2]; rfl

theorem C5_shared_verification_key_witness :
    0 ≤ 2 ∧ 2 ≤ 2 ∧
    ∃ vk : VerifyingKey G2Affine,
      (readTranscript sampleLines (sampleTranscript 800) (2 ^ 2 + 3)).1[0]? = some vk.G1 ∧
      vk.G2 = (readTranscript sampleLines (sampleTranscript 800) (2 ^ 2 + 3)).2.1 ∧
      vk.Lines = (readTranscript sampleLines (sampleTranscript 800) (2 ^ 2 + 3)).2.2 ∧
      vk.Lines = (sampleLines vk.G2.1, sampleLines vk.G2.2) ∧
      ((main sampleLines sampleToLagrange 2 (sampleTranscript 800)).files[2 * 0]?).map
        (fun f => f.2.Vk) = some vk ∧
      ((main sampleLines sampleToLagrange 2 (sampleTranscript 800)).files[2 * 0 + 1]?).map
        (fun f => f.2.Vk) = some vk ∧
      ((main sampleLines sampleToLagrange 2 (sampleTranscript 800)).files[2 * 2]?).map
        (fun f => f.2.Vk) = some vk ∧
      ((main sampleLines sampleToLagrange 2 (sampleTranscript 800)).files[2 * 2 + 1]?).map
        (fun f => f.2.Vk) = some vk :=
  ⟨by decide, by decide,
   C5_shared_verification_key sampleLines sampleToLagrange 2 0 2 (sampleTranscript 800)
    (by decide) (by decide)⟩

/-- C7: for every source-group array of length `L` and every `n` with
`2^n + 3 > L`, the turn of the loop for `n` fails at the slice expression
`g1[:sizeCanonical]`, before any reference string is built, and leaves the
files written so far as they were; the loop ends there, so nothing is
written for that `n` or any later one. -/
theorem C7_insufficient_transcript {L : Type}
    (ToLagrangeG1 : List G1Affine → List G1Affine × Option GoError)
    (g1 : List G1Affine) (g2 : G2Affine × G2Affine) (lines : L × L)
    (n count : Nat) (written : List (String × SRS L)) (h : g1.length < 2 ^ n + 3) :
    genSize ToLagrangeG1 g1 g2 lines n written =
      ⟨written, some (GoPanic.sliceBoundsOutOfRange (2 ^ n + 3) g1.length)⟩ ∧
    genLoop ToLagrangeG1 g1 g2 lines (count + 1) n written =
      ⟨written, some (GoPanic.sliceBoundsOutOfRange (2 ^ n + 3) g1.length)⟩ := by
  have hs := genSize_short ToLagrangeG1 g1 g2 lines n written h
  refine ⟨hs, ?_⟩
  rw [genLoop, hs]

theorem C7_insufficient_transcript_witness :
    (List.replicate 6 (⟨⟨1⟩, ⟨2⟩⟩ : G1Affine)).length < 2 ^ 2 + 3 ∧
    (genSize sampleToLagrange (List.replicate 6 (⟨⟨1⟩, ⟨2⟩⟩ : G1Affine))
        (⟨⟨⟨0⟩, ⟨0⟩⟩, ⟨⟨0⟩, ⟨0⟩⟩⟩, ⟨⟨⟨0⟩, ⟨0⟩⟩, ⟨⟨0⟩, ⟨0⟩⟩⟩) ((), ()) 2 [] =
      ⟨[], some (GoPanic.sliceBoundsOutOfRange (2 ^ 2 + 3)
        (List.replicate 6 (⟨⟨1⟩, ⟨2⟩⟩ : G1Affine)).length)⟩ ∧
     genLoop sampleToLagrange (List.replicate 6 (⟨⟨1⟩, ⟨2⟩⟩ : G1Affine))
        (⟨⟨⟨0⟩, ⟨0⟩⟩, ⟨⟨0⟩, ⟨0⟩⟩⟩, ⟨⟨⟨0⟩, ⟨0⟩⟩, ⟨⟨0⟩, ⟨0⟩⟩⟩) ((), ()) (0 + 1) 2 [] =
      ⟨[], some (GoPanic.sliceBoundsOutOfRange (2 ^ 2 + 3)
        (List.replicate 6 (⟨⟨1⟩, ⟨2⟩⟩ : G1Affine)).length)⟩) :=
  ⟨by decide,
   C7_insufficient_transcript sampleToLagrange (List.replicate 6 (⟨⟨1⟩, ⟨2⟩⟩ : G1Affine))
    (⟨⟨⟨0⟩, ⟨0⟩⟩, ⟨⟨0⟩, ⟨0⟩⟩⟩, ⟨⟨⟨0⟩, ⟨0⟩⟩, ⟨⟨0⟩, ⟨0⟩⟩⟩) ((), ()) 2 0 [] (by decide)⟩

/-- C8: for all `n1 < n2 ≤ N` the commitment key of `srs_n1.srs` is a
prefix of the commitment key of `srs_n2.srs`: the first `2^n1 + 3` points of
the latter are the former. -/
theorem C8_monomial_keys_nested {L : Type} (PrecomputeLines : G2Affine → L)
    (ToLagrangeG1 : List G1Affine → List G1Affine × Option GoError)
    (N n1 n2 : Nat) (t : List Byte) (h1 : n1 < n2) (h2 : n2 ≤ N) :
    ∃ srs1 srs2 : SRS L,
      (main PrecomputeLines ToLagrangeG1 N t).files[2 * n1]? =
        some ("srs_" ++ toString n1 ++ ".srs", srs1) ∧
      (main PrecomputeLines ToLagrangeG1 N t).files[2 * n2]? =
        some ("srs_" ++ toString n2 ++ ".srs", srs2) ∧
      srs1.Pk.G1 <+: srs2.Pk.G1 ∧
      srs2.Pk.G1.take (2 ^ n1 + 3) = srs1.Pk.G1 ∧
      srs1.Pk.G1.length = 2 ^ n1 + 3 := by
  have hle : 2 ^ n1 + 3 ≤ 2 ^ n2 + 3 := pow_add_three_le (le_of_lt h1)
  refine ⟨_, _, main_monomial PrecomputeLines ToLagrangeG1 N t n1 (by omega),
    main_monomial PrecomputeLines ToLagrangeG1 N t n2 h2, ?_, ?_, ?_⟩
  · exact List.take_prefix_take_left _ hle
  · simp only [List.take_take, Nat.min_eq_left hle]
  · exact take_g1_length PrecomputeLines t N _ (pow_add_three_le (by omega))

theorem C8_monomial_keys_nested_witness :
    0 < 2 ∧ 2 ≤ 2 ∧
    ∃ srs1 srs2 : SRS G2Affine,
      (main sampleLines sampleToLagrange 2 (sampleTranscript 800)).files[2 * 0]? =
        some ("srs_" ++ toString 0 ++ ".srs", srs1) ∧
      (main sampleLines sampleToLagrange 2 (sampleTranscript 800)).files[2 * 2]? =
        some ("srs_" ++ toString 2 ++ ".srs", srs2) ∧
      srs1.Pk.G1 <+: srs2.Pk.G1 ∧
      srs2.Pk.G1.take (2 ^ 0 + 3) = srs1.Pk.G1 ∧
      srs1.Pk.G1.length = 2 ^ 0 + 3 :=
  ⟨by decide, by decide,
   C8_monomial_keys_nested sampleLines sampleToLagrange 2 0 2 (sampleTranscript 800)
    (by decide) (by decide)⟩

/-- C6, as stated, fails: a transcript of 70 bytes holds 6 bytes of the
source-group section where `maxSize = 4` needs 384. The first read reports
`ErrUnexpectedEOF`, the reader still returns 4 points, the first with its
`X` padded by 42 zero bytes and every other coordinate zero, and the run
ends without a failure, both files written. -/
theorem C6_truncated_transcript_counterexample :
    (List.replicate 70 (1 : Byte)).length - 64 < 96 * 4 ∧
    (ReadFull { data := List.replicate 70 (1 : Byte), pos := 64 } 48).2.2 =
      some GoError.ErrUnexpectedEOF ∧
    (readTranscript sampleLines (List.replicate 70 (1 : Byte)) 4).1 =
      [⟨⟨beNat (List.replicate 6 (1 : Byte) ++ List.replicate 42 (0 : Byte)) % fpModulus⟩, ⟨0⟩⟩,
       ⟨⟨0⟩, ⟨0⟩⟩, ⟨⟨0⟩, ⟨0⟩⟩, ⟨⟨0⟩, ⟨0⟩⟩] ∧
    (main sampleLines sampleToLagrange 0 (List.replicate 70 (1 : Byte))).panic = none ∧
    (main sampleLines sampleToLagrange 0 (List.replicate 70 (1 : Byte))).files.length = 2 := by
  refine ⟨by decide, by decide, by decide, by decide, by decide⟩

/-- C6, amended: reading never fails, whatever the length of the transcript.
The reader returns exactly `maxSize` source-group points and two
target-group points, each coordinate decoded from the 48-byte buffer of its
field, in which the bytes the file does not hold are zero; the run ends
without a panic and writes all `2 (N + 1)` files. -/
theorem C6_truncated_transcript_zero_padded {L : Type} (PrecomputeLines : G2Affine → L)
    (ToLagrangeG1 : List G1Affine → List G1Affine × Option GoError)
    (N : Nat) (t : List Byte) (maxSize : Nat) :
    (readTranscript PrecomputeLines t maxSize).1.length = maxSize ∧
    (readTranscript PrecomputeLines t maxSize).1 =
      (List.range maxSize).map (fun i =>
        ({ X := SetBytes (fieldAt t (64 + 96 * i)),
           Y := SetBytes (fieldAt t (64 + 96 * i + 48)) } : G1Affine)) ∧
    (readTranscript PrecomputeLines t maxSize).2.1 =
      (g2PointAt t (g2Offset t maxSize), g2PointAt t (g2Offset t maxSize + 192)) ∧
    (∀ off, fieldAt t off =
      (t.drop off).take 48 ++ List.replicate (48 - min 48 (t.length - off)) (0 : Byte)) ∧
    (main PrecomputeLines ToLagrangeG1 N t).panic = none ∧
    (main PrecomputeLines ToLagrangeG1 N t).files.length = 2 * (N + 1) := by
  refine ⟨readTranscript_g1_length PrecomputeLines t maxSize,
    readTranscript_g1 PrecomputeLines t maxSize, ?_, ?_,
    main_panic PrecomputeLines ToLagrangeG1 N t,
    main_files_length PrecomputeLines ToLagrangeG1 N t⟩
  · rw [readTranscript_eq]
  · intro off
    simp only [fieldAt, List.length_take, List.length_drop]

set_option maxRecDepth 100000 in
/-- C9, as stated, fails: on a transcript that holds the header and the 4
source-group points read, the first target-group point is read at offset
`64 + (2^28 - 1) * 96 = 25769803744`, which is 96 less than the claimed
`64 + (2^28 - 1) * 96 + 96`. -/
theorem C9_target_offset_counterexample :
    64 + 96 * 4 ≤ (sampleTranscript 448).length ∧
    g2Offset (sampleTranscript 448) 4 = 25769803744 ∧
    g2Offset (sampleTranscript 448) 4 ≠ 64 + (2 ^ 28 - 1) * 96 + 96 := by
  refine ⟨by simp [sampleTranscript], by decide, by decide⟩

/-- C9, amended: for every `maxSize` and every transcript that holds the
header and the `maxSize` source-group points read, the first target-group
point is read at the header size plus the full source-group section size,
`64 + (2^28 - 1) * 96`, with no further per-point width added. -/
theorem C9_target_offset {t : List Byte} {maxSize : Nat}
    (h : 64 + 96 * maxSize ≤ t.length) :
    g2Offset t maxSize = 64 + (2 ^ 28 - 1) * 96 :=
  g2Offset_of_le t maxSize h

theorem C9_target_offset_witness :
    64 + 96 * 4 ≤ (sampleTranscript 448).length ∧
    g2Offset (sampleTranscript 448) 4 = 64 + (2 ^ 28 - 1) * 96 :=
  ⟨by simp [sampleTranscript], C9_target_offset (by simp [sampleTranscript])⟩

/-- C10: `main` reads `maxSize = 2^N + 3` source-group points, and for every
`n ≤ N` both slice bounds are in range, `2^n ≤ 2^n + 3 ≤ maxSize`, so the
slice expressions `g1[:2^n+3]` and `g1[:2^n]` succeed and the run ends
without a panic; at `n = N` the monomial key is the whole array. -/
theorem C10_slices_in_range {L : Type} (PrecomputeLines : G2Affine → L)
    (ToLagrangeG1 : List G1Affine → List G1Affine × Option GoError)
    (N n : Nat) (t : List Byte) (h : n ≤ N) :
    (1 <<< N) + 3 = 2 ^ N + 3 ∧
    (readTranscript PrecomputeLines t (2 ^ N + 3)).1.length = 2 ^ N + 3 ∧
    2 ^ n ≤ 2 ^ n + 3 ∧ 2 ^ n + 3 ≤ 2 ^ N + 3 ∧
    sliceTo (readTranscript PrecomputeLines t (2 ^ N + 3)).1 (2 ^ n + 3) =
      .ok ((readTranscript PrecomputeLines t (2 ^ N + 3)).1.take (2 ^ n + 3)) ∧
    sliceTo (readTranscript PrecomputeLines t (2 ^ N + 3)).1 (2 ^ n) =
      .ok ((readTranscript PrecomputeLines t (2 ^ N + 3)).1.take (2 ^ n)) ∧
    (main PrecomputeLines ToLagrangeG1 N t).panic = none ∧
    sliceTo (readTranscript PrecomputeLines t (2 ^ N + 3)).1 (2 ^ N + 3) =
      .ok (readTranscript PrecomputeLines t (2 ^ N + 3)).1 ∧
    ((main PrecomputeLines ToLagrangeG1 N t).files[2 * N]?).map (fun f => f.2.Pk.G1) =
      some (readTranscript PrecomputeLines t (2 ^ N + 3)).1 := by
  have hl := readTranscript_g1_length PrecomputeLines t (2 ^ N + 3)
  have hn : 2 ^ n + 3 ≤ 2 ^ N + 3 := pow_add_three_le h
  have hn2 : 2 ^ n ≤ 2 ^ N + 3 := le_trans (Nat.le_add_right _ 3) hn
  refine ⟨by rw [Nat.one_shiftLeft], hl, Nat.le_add_right _ 3, hn, ?_, ?_,
    main_panic PrecomputeLines ToLagrangeG1 N t, ?_, ?_⟩
  · simp [sliceTo, hl, hn]
  · simp [sliceTo, hl, hn2]
  · simp only [sliceTo, hl, le_refl, if_true]
    rw [List.take_of_length_le (le_of_eq hl)]
  · rw [main_monomial PrecomputeLines ToLagrangeG1 N t N (le_refl N)]
    simp only [Option.map_some']
    rw [List.take_of_length_le (le_of_eq hl)]

theorem C10_slices_in_range_witness :
    1 ≤ 2 ∧
    ((1 <<< 2) + 3 = 2 ^ 2 + 3 ∧
    (readTranscript sampleLines (sampleTranscript 800) (2 ^ 2 + 3)).1.length = 2 ^ 2 + 3 ∧
    2 ^ 1 ≤ 2 ^ 1 + 3 ∧ 2 ^ 1 + 3 ≤ 2 ^ 2 + 3 ∧
    sliceTo (readTranscript sampleLines (sampleTranscript 800) (2 ^ 2 + 3)).1 (2 ^ 1 + 3) =
      .ok ((readTranscript sampleLines (sampleTranscript 800) (2 ^ 2 + 3)).1.take (2 ^ 1 + 3)) ∧
    sliceTo (readTranscript sampleLines (sampleTranscript 800) (2 ^ 2 + 3)).1 (2 ^ 1) =
      .ok ((readTranscript sampleLines (sampleTranscript 800) (2 ^ 2 + 3)).1.take (2 ^ 1)) ∧
    (main sampleLines sampleToLagrange 2 (sampleTranscript 800)).panic = none ∧
    sliceTo (readTranscript sampleLines (sampleTranscript 800) (2 ^ 2 + 3)).1 (2 ^ 2 + 3) =
      .ok (readTranscript sampleLines (sampleTranscript 800) (2 ^ 2 + 3)).1 ∧
    ((main sampleLines sampleToLagrange 2 (sampleTranscript 800)).files[2 * 2]?).map
        (fun f => f.2.Pk.G1) =
      some (readTranscript sampleLines (sampleTranscript 800) (2 ^ 2 + 3)).1) :=
  ⟨by decide,
   C10_slices_in_range sampleLines sampleToLagrange 2 1 (sampleTranscript 800) (by decide)⟩

end SrsFromChallenge
